import Mathlib

/-!
Verification of the L-system engine in lsystem.py.

The embedding translates the class LSystem and its nested class Turtle:
coordinates and angles become real numbers (the Python code uses floats
with math.cos / math.sin / math.radians), symbol sequences become lists
of characters, the rules dict becomes an association list wrapped in
Option (the constructor default is rules=None), and Python exceptions
(IndexError from states.pop on an empty list, AttributeError from
None.get, ValueError from numpy reductions over an empty array) become
the error branch of Except.  An exception escaping a method leaves the
object in whatever intermediate state the mutations so far produced, so
the error branch carries that intermediate state.
-/

noncomputable section

/-- Turtle state, from class LSystem.Turtle.__init__: position (0,0),
angle 0, an empty saved-state list and an empty vectors array.  The
vectors array is kept as a flat list of points in which consecutive
pairs form one line, exactly like the numpy array in the source. -/
structure LSystem.Turtle where
  pos : ℝ × ℝ
  angle : ℝ
  states : List ((ℝ × ℝ) × ℝ)
  vectors : List (ℝ × ℝ)

namespace LSystem.Turtle

/-- Fresh turtle, from Turtle.__init__. -/
def init : Turtle := { pos := (0, 0), angle := 0, states := [], vectors := [] }

/-- Turtle.turn: self.angle += math.radians(angle). -/
def turn (t : Turtle) (d : ℝ) : Turtle :=
  { t with angle := t.angle + d * Real.pi / 180 }

/-- Turtle.move: advance one unit along the heading; when draw is true
the pair (old position, new position) is appended to the vectors. -/
def move (t : Turtle) (draw : Bool) : Turtle :=
  let newPos : ℝ × ℝ := (t.pos.1 + Real.cos t.angle, t.pos.2 + Real.sin t.angle)
  { t with
    pos := newPos,
    vectors := if draw then t.vectors ++ [t.pos, newPos] else t.vectors }

/-- Turtle.push: append (pos, angle) to the saved-state stack.  The
Python list appends and pops at its end; we keep the stack top at the
head of the list, the same LIFO discipline. -/
def push (t : Turtle) : Turtle :=
  { t with states := (t.pos, t.angle) :: t.states }

/-- Turtle.pop: self.states.pop() raises IndexError on an empty list,
leaving the turtle unchanged; otherwise it removes the most recently
pushed snapshot and restores pos and angle from it. -/
def pop (t : Turtle) : Except Turtle Turtle :=
  match t.states with
  | [] => .error t
  | s :: rest => .ok { t with pos := s.1, angle := s.2, states := rest }

/-- Turtle.get_vectors. -/
def getVectors (t : Turtle) : List (ℝ × ℝ) := t.vectors

/-- Turtle.clear_vectors: reset the vectors array to empty. -/
def clearVectors (t : Turtle) : Turtle := { t with vectors := [] }

end LSystem.Turtle

/-- The LSystem object state, from LSystem.__init__: angle, thickness,
the initial sequence (field start, per the constructor argument holding
the initial state), the current sequence, the iteration counter n, the
optional rules dict, and the single turtle created at construction. -/
structure LSystem where
  angle : ℝ
  thickness : ℕ
  start : List Char
  state : List Char
  n : ℕ
  rules : Option (List (Char × List Char))
  turtle : LSystem.Turtle

namespace LSystem

/-- LSystem.__init__: state starts as the initial sequence, n = 0, and
one fresh Turtle is created. -/
def mk' (ax : List Char) (rules : Option (List (Char × List Char)))
    (angle : ℝ) (thickness : ℕ) : LSystem :=
  { angle := angle, thickness := thickness, start := ax, state := ax,
    n := 0, rules := rules, turtle := Turtle.init }

/-- self.rules.get(x, x): the replacement from the dict when present,
else the one-symbol sequence containing x itself. -/
def ruleLookup (tbl : List (Char × List Char)) (c : Char) : List Char :=
  match tbl.lookup c with
  | some r => r
  | none => [c]

/-- One rewrite: ''.join([self.rules.get(x, x) for x in self.state]). -/
def rewriteStep (tbl : List (Char × List Char)) (s : List Char) : List Char :=
  (s.map (ruleLookup tbl)).flatten

/-- One symbol of the interpretation loop: the symbols dict of
LSystem.step maps the six command characters to turtle actions and the
loop skips any other character. -/
def applySym (angle : ℝ) (t : Turtle) (c : Char) : Except Turtle Turtle :=
  match c with
  | '+' => .ok (t.turn (-angle))
  | '-' => .ok (t.turn angle)
  | 'F' => .ok (t.move true)
  | 'f' => .ok (t.move false)
  | '[' => .ok t.push
  | ']' => t.pop
  | _ => .ok t

/-- The interpretation loop of LSystem.step: for c in self.state, apply
the action; an IndexError from pop aborts the loop, the error carrying
the turtle state at that moment. -/
def interpAll (angle : ℝ) (t : Turtle) : List Char → Except Turtle Turtle
  | [] => .ok t
  | c :: cs =>
    match applySym angle t c with
    | .ok t' => interpAll angle t' cs
    | .error t' => .error t'

/-- One iteration of the loop body of LSystem.step: clear the vectors,
rewrite the state, interpret the new state with the same turtle, then
increment n.  With rules = None, the comprehension raises
AttributeError at the first .get call (so only when the state is
non-empty), after clear_vectors already ran and before self.state is
assigned.  An IndexError during interpretation escapes after self.state
was assigned, leaving n unchanged and the partially built vectors in
place. -/
def stepOnce (ls : LSystem) : Except LSystem LSystem :=
  match ls.rules with
  | none =>
    if ls.state = [] then
      .ok { ls with state := [], n := ls.n + 1, turtle := ls.turtle.clearVectors }
    else
      .error { ls with turtle := ls.turtle.clearVectors }
  | some tbl =>
    let s' := rewriteStep tbl ls.state
    match interpAll ls.angle ls.turtle.clearVectors s' with
    | .ok t' => .ok { ls with state := s', n := ls.n + 1, turtle := t' }
    | .error t' => .error { ls with state := s', turtle := t' }

/-- LSystem.step(iter): run the loop body iter times; an escaping
exception aborts the remaining iterations. -/
def step (ls : LSystem) : ℕ → Except LSystem LSystem
  | 0 => .ok ls
  | k + 1 =>
    match stepOnce ls with
    | .ok l => l.step k
    | .error l => .error l

/-- The object state an LSystem is left in after a step call, whether
or not an exception escaped. -/
def exceptState : Except LSystem LSystem → LSystem
  | .ok l => l
  | .error l => l

/-- The partial object state when a step call raised, none on success. -/
def errPart : Except LSystem LSystem → Option LSystem
  | .ok _ => none
  | .error l => some l

/-- LSystem.step_to(n): assert n >= self.n (an AssertionError leaves the
object untouched), then step(n - self.n). -/
def stepTo (ls : LSystem) (m : ℕ) : Except LSystem LSystem :=
  if m < ls.n then .error ls else ls.step (m - ls.n)

/-- LSystem.reset: clear the vectors, restore the initial sequence, set
n = 0.  The turtle position, angle and saved states are not touched. -/
def reset (ls : LSystem) : LSystem :=
  { ls with state := ls.start, n := 0, turtle := ls.turtle.clearVectors }

/-- LSystem.get_vectors: the turtle's accumulated vectors. -/
def getVectors (ls : LSystem) : List (ℝ × ℝ) := ls.turtle.getVectors

/-- The mutating operations available on an LSystem object. -/
inductive Op where
  | step (k : ℕ)
  | stepTo (m : ℕ)
  | reset

/-- Run one operation and keep the resulting object state, whether the
call returned normally or raised. -/
def applyOp (ls : LSystem) : Op → LSystem
  | .step k => exceptState (ls.step k)
  | .stepTo m => exceptState (ls.stepTo m)
  | .reset => ls.reset

/-- LSystem._get_vector_bounds: numpy max/min reductions along axis 0
raise ValueError on an empty array; otherwise the result is
(min x, min y, max x, max y) over all points. -/
def boundsOf : List (ℝ × ℝ) → Option (ℝ × ℝ × ℝ × ℝ)
  | [] => none
  | p :: ps =>
    some (ps.foldl
      (fun (b : ℝ × ℝ × ℝ × ℝ) q =>
        (min b.1 q.1, min b.2.1 q.2, max b.2.2.1 q.1, max b.2.2.2 q.2))
      (p.1, p.2, p.1, p.2))

/-- Python 2 round: to the nearest integer, halves away from zero. -/
def pyRound (x : ℝ) : ℤ :=
  if 0 ≤ x then ⌊x + 1 / 2⌋ else ⌈x - 1 / 2⌉

/-- One pygame.draw.line call recorded by the rasterizer: an hsla
color, the two (possibly fractional) pixel endpoints and the line
thickness. -/
structure DrawCmd where
  color : ℝ × ℝ × ℝ × ℝ
  p1 : ℝ × ℝ
  p2 : ℝ × ℝ
  thickness : ℕ

/-- The surface handed to pygame.image.save: its dimensions as computed
by write_png and the ordered list of line-draw calls. -/
structure Canvas where
  width : ℝ
  height : ℝ
  cmds : List DrawCmd

/-- The loop of write_png over i in range(0, num_v, 2): consume the
vectors two points at a time; i is the index of the segment's first
point, hue = (float(i) / num_v) * 360, color hsla = (hue, 50, 50, 100),
and each endpoint coordinate is rounded first and scaled and offset
afterwards: round(x1) * x_mul + x_offset. -/
def drawCmds (xmul ymul xoff yoff : ℝ) (thk : ℕ) (numv : ℕ) :
    ℕ → List (ℝ × ℝ) → List DrawCmd
  | i, p1 :: p2 :: rest =>
    { color := (((i : ℝ) / (numv : ℝ)) * 360, 50, 50, 100),
      p1 := ((pyRound p1.1 : ℝ) * xmul + xoff, (pyRound p1.2 : ℝ) * ymul + yoff),
      p2 := ((pyRound p2.1 : ℝ) * xmul + xoff, (pyRound p2.2 : ℝ) * ymul + yoff),
      thickness := thk } :: drawCmds xmul ymul xoff yoff thk numv (i + 2) rest
  | _, [] => []
  | _, [_] => []

/-- LSystem.write_png up to the external encoder: compute the bounds
(ValueError on an empty vectors array propagates as the error case),
derive surface size and offsets with x_mul = y_mul = 5 and
buffer_space = 10, then record every line-draw call in order. -/
def writePng (ls : LSystem) : Except Unit Canvas :=
  match boundsOf ls.getVectors with
  | none => .error ()
  | some (xmin, ymin, xmax, ymax) =>
    let xmul : ℝ := 5
    let ymul : ℝ := 5
    let buf : ℝ := 10
    let xoff : ℝ := -xmin * xmul + buf
    let yoff : ℝ := -ymin * ymul + buf
    .ok { width := (xmax - xmin) * xmul + buf * 2,
          height := (ymax - ymin) * ymul + buf * 2,
          cmds := drawCmds xmul ymul xoff yoff ls.thickness
                    ls.getVectors.length 0 ls.getVectors }

/-- Group a flat point list into consecutive pairs (the segments). -/
def segsOf : List (ℝ × ℝ) → List ((ℝ × ℝ) × (ℝ × ℝ))
  | p1 :: p2 :: rest => (p1, p2) :: segsOf rest
  | [] => []
  | [_] => []

/-- The driver in __main__ for one target generation: build the system,
advance, and render.  Returns the canvas when both stages succeed. -/
def renderOut (ax : List Char) (rules : Option (List (Char × List Char)))
    (angle : ℝ) (thickness : ℕ) (gen : ℕ) : Option Canvas :=
  match (mk' ax rules angle thickness).step gen with
  | .ok l => (writePng l).toOption
  | .error _ => none

/-- Modelled from the spec: the rasterizer endpoint mapping as the spec
words it, each endpoint coordinate rounded to an integer pixel
coordinate after applying scale and offset. -/
def specRoundAfter (x mul off : ℝ) : ℝ :=
  (pyRound (x * mul + off) : ℝ)

/-- Run a step call and continue with b further iterations when it
returned normally, propagating an escaped exception otherwise. -/
def seqStep (e : Except LSystem LSystem) (b : ℕ) : Except LSystem LSystem :=
  match e with
  | .ok l => l.step b
  | .error l => .error l

/-- LSystem('A', {}): one inert symbol, an empty rules dict. -/
def demoA : LSystem := mk' ['A'] (some []) 90 1

/-- LSystem('F', {}): one drawing symbol, an empty rules dict. -/
def demoF : LSystem := mk' ['F'] (some []) 90 1

/-- LSystem('F]', {}): draws one segment, then pops an empty stack. -/
def demoFpop : LSystem := mk' ['F', ']'] (some []) 90 1

/-- LSystem(']', {}): pops an empty stack immediately. -/
def demoPop : LSystem := mk' [']'] (some []) 90 1

/-- LSystem('', None): empty initial sequence, rules left at the
constructor default None. -/
def demoEmptyNone : LSystem := mk' [] none 90 1

/-- An LSystem whose turtle has accumulated one degenerate segment from
(0,0) to (0,0). -/
def demoSeg : LSystem :=
  { angle := 90, thickness := 1, start := [], state := [], n := 0,
    rules := some [],
    turtle := { pos := (0, 0), angle := 0, states := [],
                vectors := [(0, 0), (0, 0)] } }

/-- An LSystem whose turtle has accumulated one segment from (0,0) to
(1/2, 0), an endpoint with a fractional coordinate. -/
def demoHalf : LSystem :=
  { angle := 90, thickness := 1, start := [], state := [], n := 0,
    rules := some [],
    turtle := { pos := (1 / 2, 0), angle := 0, states := [],
                vectors := [(0, 0), (1 / 2, 0)] } }

/-- The canvas write_png produces for demoSeg. -/
def cDemo : Canvas :=
  { width := 20, height := 20,
    cmds := [{ color := (0, 50, 50, 100), p1 := (10, 10), p2 := (10, 10),
               thickness := 1 }] }

end LSystem

namespace LSystem

/-! ### Lemmas on stepping -/

theorem step_append (ls : LSystem) (a b : ℕ) :
    ls.step (a + b) = seqStep (ls.step a) b := by
  induction a generalizing ls with
  | zero => simp [step, seqStep, Nat.zero_add]
  | succ a ih =>
    rw [Nat.succ_add]
    show step ls (a + b + 1) = seqStep (step ls (a + 1)) b
    simp only [step]
    cases stepOnce ls with
    | ok l => exact ih l
    | error l => simp [seqStep]

theorem stepOnce_n_le (ls : LSystem) : ls.n ≤ (exceptState (stepOnce ls)).n := by
  rw [stepOnce]
  cases ls.rules with
  | none =>
    by_cases h : ls.state = [] <;> simp [h, exceptState]
  | some tbl =>
    cases h : interpAll ls.angle ls.turtle.clearVectors (rewriteStep tbl ls.state) <;>
      simp [h, exceptState]

theorem step_n_le (k : ℕ) (ls : LSystem) : ls.n ≤ (exceptState (ls.step k)).n := by
  induction k generalizing ls with
  | zero => simp [step, exceptState]
  | succ k ih =>
    rw [step]
    cases h : stepOnce ls with
    | ok l =>
      have h1 : ls.n ≤ l.n := by
        have := stepOnce_n_le ls
        rw [h] at this
        simpa [exceptState] using this
      exact le_trans h1 (ih l)
    | error l =>
      have := stepOnce_n_le ls
      rw [h] at this
      simpa [exceptState] using this

/-! ### Lemmas on the interpreter -/

theorem applySym_ok_vectors (a : ℝ) (t t' : Turtle) (c : Char)
    (h : applySym a t c = .ok t') :
    (c = 'F' ∧ t'.vectors = t.vectors ++
        [t.pos, (t.pos.1 + Real.cos t.angle, t.pos.2 + Real.sin t.angle)]) ∨
      (c ≠ 'F' ∧ t'.vectors = t.vectors) := by
  rw [applySym.eq_def] at h
  split at h
  · exact Or.inr ⟨by decide, by cases h; simp [Turtle.turn]⟩
  · exact Or.inr ⟨by decide, by cases h; simp [Turtle.turn]⟩
  · exact Or.inl ⟨rfl, by cases h; simp [Turtle.move]⟩
  · exact Or.inr ⟨by decide, by cases h; simp [Turtle.move]⟩
  · exact Or.inr ⟨by decide, by cases h; simp [Turtle.push]⟩
  · refine Or.inr ⟨by decide, ?_⟩
    rw [Turtle.pop] at h
    rcases hs : t.states with _ | ⟨s, rest⟩ <;> rw [hs] at h
    · cases h
    · cases h
      simp
  · rename_i h1 h2 h3 h4 h5 h6
    cases h
    exact Or.inr ⟨fun hc => h3 hc, rfl⟩

theorem interpAll_ok_count (a : ℝ) :
    ∀ (s : List Char) (t t' : Turtle), interpAll a t s = .ok t' →
      t'.vectors.length = t.vectors.length + 2 * s.count 'F'
  | [], t, t', h => by
    cases h
    simp
  | c :: cs, t, t', h => by
    rw [interpAll] at h
    cases happ : applySym a t c with
    | error u => rw [happ] at h; cases h
    | ok u =>
      rw [happ] at h
      have hrec := interpAll_ok_count a cs u t' h
      rcases applySym_ok_vectors a t u c happ with ⟨hc, hv⟩ | ⟨hc, hv⟩
      · subst hc
        rw [hrec, hv]
        simp [List.count_cons]
        omega
      · rw [hrec, hv]
        simp [List.count_cons, hc]

theorem segsOf_length : ∀ v : List (ℝ × ℝ), (segsOf v).length = v.length / 2
  | [] => by simp [segsOf]
  | [p] => by simp [segsOf]
  | p1 :: p2 :: rest => by
    rw [segsOf]
    simp only [List.length_cons]
    rw [segsOf_length rest]
    omega

/-! ### Lemmas on one rewrite iteration -/

theorem stepOnce_state (ls : LSystem) (tbl : List (Char × List Char)) :
    (exceptState (stepOnce { ls with rules := some tbl })).state =
      rewriteStep tbl ls.state := by
  rw [stepOnce]
  cases h : interpAll ls.angle ls.turtle.clearVectors (rewriteStep tbl ls.state) <;>
    simp [h, exceptState]

/-! ### Lemmas on the rasterizer -/

theorem drawCmds_map_p1 (xm ym xo yo : ℝ) (thk numv : ℕ) :
    ∀ (v : List (ℝ × ℝ)) (i : ℕ),
      (drawCmds xm ym xo yo thk numv i v).map (fun d => d.p1) =
        (segsOf v).map (fun s =>
          ((pyRound s.1.1 : ℝ) * xm + xo, (pyRound s.1.2 : ℝ) * ym + yo))
  | [], _ => by simp [drawCmds, segsOf]
  | [p], _ => by simp [drawCmds, segsOf]
  | p1 :: p2 :: rest, i => by
    rw [drawCmds, segsOf]
    simp only [List.map_cons]
    rw [drawCmds_map_p1 xm ym xo yo thk numv rest (i + 2)]

theorem drawCmds_map_p2 (xm ym xo yo : ℝ) (thk numv : ℕ) :
    ∀ (v : List (ℝ × ℝ)) (i : ℕ),
      (drawCmds xm ym xo yo thk numv i v).map (fun d => d.p2) =
        (segsOf v).map (fun s =>
          ((pyRound s.2.1 : ℝ) * xm + xo, (pyRound s.2.2 : ℝ) * ym + yo))
  | [], _ => by simp [drawCmds, segsOf]
  | [p], _ => by simp [drawCmds, segsOf]
  | p1 :: p2 :: rest, i => by
    rw [drawCmds, segsOf]
    simp only [List.map_cons]
    rw [drawCmds_map_p2 xm ym xo yo thk numv rest (i + 2)]

theorem drawCmds_length (xm ym xo yo : ℝ) (thk numv : ℕ) :
    ∀ (v : List (ℝ × ℝ)) (i : ℕ),
      (drawCmds xm ym xo yo thk numv i v).length = (segsOf v).length
  | [], _ => by simp [drawCmds, segsOf]
  | [p], _ => by simp [drawCmds, segsOf]
  | p1 :: p2 :: rest, i => by
    rw [drawCmds, segsOf]
    simp only [List.length_cons]
    rw [drawCmds_length xm ym xo yo thk numv rest (i + 2)]

theorem drawCmds_get_color (xm ym xo yo : ℝ) (thk numv : ℕ) :
    ∀ (v : List (ℝ × ℝ)) (i j : ℕ)
      (h : j < (drawCmds xm ym xo yo thk numv i v).length),
      ((drawCmds xm ym xo yo thk numv i v).get ⟨j, h⟩).color =
        (((i + 2 * j : ℕ) : ℝ) / (numv : ℝ) * 360, 50, 50, 100)
  | [], i, j, h => by simp [drawCmds] at h
  | [p], i, j, h => by simp [drawCmds] at h
  | p1 :: p2 :: rest, i, j, h => by
    match j with
    | 0 => simp [drawCmds]
    | j + 1 =>
      simp only [drawCmds, List.get_cons_succ]
      rw [drawCmds_get_color xm ym xo yo thk numv rest (i + 2) j (by
        simpa [drawCmds] using h)]
      have : i + 2 + 2 * j = i + 2 * (j + 1) := by omega
      rw [this]

theorem boundsOf_le (v : List (ℝ × ℝ)) (x0 y0 x1 y1 : ℝ)
    (h : boundsOf v = some (x0, y0, x1, y1)) : x0 ≤ x1 ∧ y0 ≤ y1 := by
  rcases v with _ | ⟨p, ps⟩
  · simp [boundsOf] at h
  · rw [boundsOf] at h
    have key : ∀ (l : List (ℝ × ℝ)) (b : ℝ × ℝ × ℝ × ℝ),
        b.1 ≤ b.2.2.1 → b.2.1 ≤ b.2.2.2 →
        (l.foldl (fun (b : ℝ × ℝ × ℝ × ℝ) q =>
            (min b.1 q.1, min b.2.1 q.2, max b.2.2.1 q.1, max b.2.2.2 q.2)) b).1 ≤
          (l.foldl (fun (b : ℝ × ℝ × ℝ × ℝ) q =>
            (min b.1 q.1, min b.2.1 q.2, max b.2.2.1 q.1, max b.2.2.2 q.2)) b).2.2.1 ∧
        (l.foldl (fun (b : ℝ × ℝ × ℝ × ℝ) q =>
            (min b.1 q.1, min b.2.1 q.2, max b.2.2.1 q.1, max b.2.2.2 q.2)) b).2.1 ≤
          (l.foldl (fun (b : ℝ × ℝ × ℝ × ℝ) q =>
            (min b.1 q.1, min b.2.1 q.2, max b.2.2.1 q.1, max b.2.2.2 q.2)) b).2.2.2 := by
      intro l
      induction l with
      | nil => intro b h1 h2; exact ⟨h1, h2⟩
      | cons q l ih =>
        intro b h1 h2
        refine ih _ ?_ ?_
        · exact le_trans (min_le_left _ _) (le_trans h1 (le_max_left _ _))
        · exact le_trans (min_le_left _ _) (le_trans h2 (le_max_left _ _))
    have := key ps (p.1, p.2, p.1, p.2) le_rfl le_rfl
    injection h with h2
    rw [h2] at this
    simpa using this

theorem pyRound_eval (x : ℝ) (m : ℤ) (h0 : 0 ≤ x) (h1 : (m : ℝ) ≤ x + 1 / 2)
    (h2 : x + 1 / 2 < m + 1) : pyRound x = m := by
  rw [pyRound, if_pos h0]
  exact Int.floor_eq_iff.mpr ⟨h1, h2⟩

theorem pyRound_zero : pyRound 0 = 0 := by
  apply pyRound_eval <;> norm_num

theorem pyRound_one : pyRound 1 = 1 := by
  apply pyRound_eval <;> norm_num

theorem pyRound_half : pyRound (1 / 2) = 1 := by
  apply pyRound_eval <;> norm_num

theorem pyRound_25_half : pyRound (25 / 2) = 13 := by
  apply pyRound_eval <;> norm_num

/-! ### Claim theorems -/

/-- C3: rewriting is compositional in the iteration count: advancing
a + b iterations behaves exactly like advancing a iterations and then b
iterations (in particular the current symbol sequence agrees), and each
single iteration substitutes every symbol of the current sequence
simultaneously and independently, concatenating the per-symbol
replacements in the original left-to-right order. -/
theorem rewrite_compositional :
    (∀ (ls : LSystem) (a b : ℕ), ls.step (a + b) = seqStep (ls.step a) b) ∧
    (∀ (tbl : List (Char × List Char)) (s : List Char),
        rewriteStep tbl s = s.flatMap (ruleLookup tbl)) ∧
    (∀ (tbl : List (Char × List Char)) (s u : List Char),
        rewriteStep tbl (s ++ u) = rewriteStep tbl s ++ rewriteStep tbl u) ∧
    (∀ (tbl : List (Char × List Char)) (c : Char),
        rewriteStep tbl [c] = ruleLookup tbl c) ∧
    (∀ (ls : LSystem) (tbl : List (Char × List Char)),
        (exceptState (stepOnce { ls with rules := some tbl })).state =
          rewriteStep tbl ls.state) := by
  refine ⟨step_append, ?_, ?_, ?_, stepOnce_state⟩
  · intro tbl s
    rfl
  · intro tbl s u
    simp [rewriteStep]
  · intro tbl c
    simp [rewriteStep]

/-- C6: when one interpretation pass (which starts with an empty
vectors buffer) completes without error, the buffer holds exactly one
segment (two points) per F in the interpreted sequence; f moves the
position without appending anything, and every other symbol appends
nothing either. -/
theorem segment_count_eq_F_count :
    (∀ (a : ℝ) (p : ℝ × ℝ) (ang : ℝ) (st : List ((ℝ × ℝ) × ℝ)) (s : List Char)
        (t' : Turtle), interpAll a ⟨p, ang, st, []⟩ s = .ok t' →
        (segsOf t'.vectors).length = s.count 'F' ∧
        t'.vectors.length = 2 * s.count 'F') ∧
    (∀ t : Turtle, (t.move false).vectors = t.vectors ∧
        (t.move false).pos = (t.pos.1 + Real.cos t.angle, t.pos.2 + Real.sin t.angle)) ∧
    (∀ (a : ℝ) (t t' : Turtle) (c : Char), c ≠ 'F' → applySym a t c = .ok t' →
        t'.vectors = t.vectors) := by
  refine ⟨?_, ?_, ?_⟩
  · intro a p ang st s t' h
    have h2 := interpAll_ok_count a s ⟨p, ang, st, []⟩ t' h
    simp at h2
    refine ⟨?_, h2⟩
    rw [segsOf_length, h2]
    omega
  · intro t
    constructor <;> simp [Turtle.move]
  · intro a t t' c hc h
    rcases applySym_ok_vectors a t t' c h with ⟨h1, _⟩ | ⟨_, h2⟩
    · exact absurd h1 hc
    · exact h2

/-- Witness for C6: a concrete successful pass. -/
theorem segment_count_eq_F_count_witness :
    interpAll 0 ⟨((0 : ℝ), (0 : ℝ)), 0, [], []⟩ ['[', ']'] =
      .ok ⟨((0 : ℝ), (0 : ℝ)), 0, [], []⟩ ∧
    (segsOf (Turtle.mk ((0 : ℝ), (0 : ℝ)) 0 [] []).vectors).length =
      (['[', ']'] : List Char).count 'F' ∧
    (Turtle.mk ((0 : ℝ), (0 : ℝ)) 0 [] []).vectors.length =
      2 * (['[', ']'] : List Char).count 'F' :=
  ⟨rfl, segment_count_eq_F_count.1 0 (0, 0) 0 [] ['[', ']'] _ rfl⟩

/-- C7 (amended): the generation counter n never decreases under step
or step_to (a failed call leaves it unchanged, a successful one
increases it), but reset sets it back to 0, so it is not monotone over
sequences of operations that include reset. -/
theorem generation_monotone_except_reset :
    (∀ (ls : LSystem) (k : ℕ), ls.n ≤ (applyOp ls (.step k)).n) ∧
    (∀ (ls : LSystem) (m : ℕ), ls.n ≤ (applyOp ls (.stepTo m)).n) ∧
    (∀ ls : LSystem, (applyOp ls .reset).n = 0) := by
  refine ⟨?_, ?_, ?_⟩
  · intro ls k
    simpa [applyOp] using step_n_le k ls
  · intro ls m
    simp only [applyOp, stepTo]
    split
    · simp [exceptState]
    · exact step_n_le _ ls
  · intro ls
    rfl

/-- C7 counterexample: reset is an operation on the object, and it
moves the generation counter from 1 back to 0, a strict decrease. -/
theorem reset_decreases_generation :
    (applyOp demoA (.step 1)).n = 1 ∧
    (applyOp (applyOp demoA (.step 1)) .reset).n = 0 ∧
    (applyOp (applyOp demoA (.step 1)) .reset).n < (applyOp demoA (.step 1)).n := by
  refine ⟨rfl, rfl, ?_⟩
  show (0 : ℕ) < 1
  exact Nat.zero_lt_one

/-- C8: requesting bounds of an empty vectors buffer fails, and
write_png fails in turn before any surface is produced. -/
theorem empty_geometry_render_fails (ls : LSystem) (h : ls.getVectors = []) :
    boundsOf ls.getVectors = none ∧ writePng ls = .error () := by
  constructor
  · rw [h]
    rfl
  · rw [writePng, h]
    rfl

/-- Witness for C8: a freshly constructed system has an empty buffer
and cannot be rendered. -/
theorem empty_geometry_render_fails_witness :
    boundsOf demoA.getVectors = none ∧ writePng demoA = .error () :=
  empty_geometry_render_fails demoA rfl

/-- C9: the pipeline is deterministic: identical configuration (initial
sequence, rules, angle, thickness) advanced the same number of
iterations yields identical symbol sequences, identical vectors buffers
and an identical canvas. -/
theorem render_deterministic (ax1 ax2 : List Char)
    (r1 r2 : Option (List (Char × List Char))) (g1 g2 : ℝ) (t1 t2 n1 n2 : ℕ)
    (hax : ax1 = ax2) (hr : r1 = r2) (hg : g1 = g2) (ht : t1 = t2)
    (hn : n1 = n2) :
    ((mk' ax1 r1 g1 t1).step n1).map (fun l => l.state) =
      ((mk' ax2 r2 g2 t2).step n2).map (fun l => l.state) ∧
    ((mk' ax1 r1 g1 t1).step n1).map (fun l => l.turtle.vectors) =
      ((mk' ax2 r2 g2 t2).step n2).map (fun l => l.turtle.vectors) ∧
    renderOut ax1 r1 g1 t1 n1 = renderOut ax2 r2 g2 t2 n2 := by
  subst hax hr hg ht hn
  exact ⟨rfl, rfl, rfl⟩

/-- Witness for C9 at a concrete configuration. -/
theorem render_deterministic_witness :
    ((mk' ['F'] (some []) 90 1).step 1).map (fun l => l.state) =
      ((mk' ['F'] (some []) 90 1).step 1).map (fun l => l.state) ∧
    ((mk' ['F'] (some []) 90 1).step 1).map (fun l => l.turtle.vectors) =
      ((mk' ['F'] (some []) 90 1).step 1).map (fun l => l.turtle.vectors) ∧
    renderOut ['F'] (some []) 90 1 1 = renderOut ['F'] (some []) 90 1 1 :=
  render_deterministic ['F'] ['F'] (some []) (some []) 90 90 1 1 1 1
    rfl rfl rfl rfl rfl

/-- C10 (amended): with the constructor default rules = None, a step
call of one or more iterations fails at the first replacement lookup
provided the current sequence is non-empty (the object keeps its state
and counter, only the vectors were cleared); with an empty current
sequence no lookup happens and the call succeeds.  When rules is an
actual mapping, a symbol without an entry passes through unchanged. -/
theorem none_rules_step_fails :
    (∀ (ls : LSystem) (k : ℕ), ls.rules = none → ls.state ≠ [] →
        ls.step (k + 1) = .error { ls with turtle := ls.turtle.clearVectors }) ∧
    (∀ (tbl : List (Char × List Char)) (c : Char), tbl.lookup c = none →
        ruleLookup tbl c = [c]) := by
  constructor
  · intro ls k hr hs
    have h1 : stepOnce ls = .error { ls with turtle := ls.turtle.clearVectors } := by
      rw [stepOnce, hr]
      simp [hs]
    rw [step, h1]
  · intro tbl c h
    rw [ruleLookup, h]

/-- Witness for C10. -/
theorem none_rules_step_fails_witness :
    (mk' ['F'] none 90 1).step 1 =
      .error { mk' ['F'] none 90 1 with
               turtle := (mk' ['F'] none 90 1).turtle.clearVectors } ∧
    ruleLookup [('A', ['A', 'B'])] 'B' = ['B'] :=
  ⟨none_rules_step_fails.1 (mk' ['F'] none 90 1) 0 rfl (by decide),
   none_rules_step_fails.2 [('A', ['A', 'B'])] 'B' rfl⟩

/-- C10 counterexample: with rules = None but an empty current
sequence, step performs no lookup at all and succeeds, so it is not
true that every step call on a default-rules system fails. -/
theorem none_rules_empty_succeeds :
    demoEmptyNone.step 1 =
      .ok { demoEmptyNone with
              state := [],
              n := 1,
              turtle := demoEmptyNone.turtle.clearVectors } := rfl

/-- C1 (amended): each iteration of step clears the vectors buffer, so
the result of a pass never depends on previously accumulated vectors
and a successful pass holds exactly the segments of that pass; but the
turtle itself is reused, so its position, heading and saved states
carry over from the previous pass. -/
theorem step_buffer_fresh_pose_stale :
    (∀ (ls : LSystem) (tbl : List (Char × List Char)) (v : List (ℝ × ℝ)),
        stepOnce { ls with rules := some tbl,
                           turtle := { ls.turtle with vectors := v } } =
          stepOnce { ls with rules := some tbl }) ∧
    (∀ (ls : LSystem) (tbl : List (Char × List Char)) (l' : LSystem),
        ls.rules = some tbl → stepOnce ls = .ok l' →
        l'.turtle.vectors.length = 2 * (rewriteStep tbl ls.state).count 'F') := by
  constructor
  · intro ls tbl v
    rfl
  · intro ls tbl l' hr h
    rw [stepOnce, hr] at h
    cases hi : interpAll ls.angle ls.turtle.clearVectors (rewriteStep tbl ls.state) with
    | ok t' =>
      simp only [hi] at h
      cases h
      have h2 := interpAll_ok_count ls.angle (rewriteStep tbl ls.state)
        ls.turtle.clearVectors t' hi
      simpa [Turtle.clearVectors] using h2
    | error t' =>
      simp only [hi] at h
      cases h

/-- Witness for C1: one successful pass on a one-symbol system. -/
theorem step_buffer_fresh_pose_stale_witness :
    stepOnce demoA =
      .ok { demoA with
              state := ['A'],
              n := 1,
              turtle := demoA.turtle.clearVectors } ∧
    ({ demoA with
         state := ['A'],
         n := 1,
         turtle := demoA.turtle.clearVectors } : LSystem).turtle.vectors.length =
      2 * (rewriteStep [] demoA.state).count 'F' :=
  ⟨rfl, step_buffer_fresh_pose_stale.2 demoA [] _ rfl rfl⟩

/-- C1 counterexample: interpreting the same one-symbol sequence F in
two consecutive iterations of the same LSystem yields different
segments, because the second pass starts from position (1, 0) left by
the first pass rather than from a fresh turtle at the origin. -/
theorem fresh_turtle_refuted :
    ((demoF.step 1).toOption.map fun l => l.turtle.vectors) =
      some [((0 : ℝ), (0 : ℝ)), (1, 0)] ∧
    ((demoF.step 2).toOption.map fun l => l.turtle.vectors) =
      some [((1 : ℝ), (0 : ℝ)), (2, 0)] ∧
    ((demoF.step 2).toOption.map fun l => l.state) = some ['F'] ∧
    [((1 : ℝ), (0 : ℝ)), (2, 0)] ≠ [((0 : ℝ), (0 : ℝ)), (1, 0)] := by
  refine ⟨?_, ?_, ?_, ?_⟩
  · simp [demoF, mk', step, stepOnce, rewriteStep, ruleLookup, interpAll, applySym,
      Turtle.move, Turtle.clearVectors, Turtle.init, Real.cos_zero, Real.sin_zero]
    exact ⟨_, rfl, rfl⟩
  · simp [demoF, mk', step, stepOnce, rewriteStep, ruleLookup, interpAll, applySym,
      Turtle.move, Turtle.clearVectors, Turtle.init, Real.cos_zero, Real.sin_zero]
    exact ⟨_, rfl, by norm_num⟩
  · simp [demoF, mk', step, stepOnce, rewriteStep, ruleLookup, interpAll, applySym,
      Turtle.move, Turtle.clearVectors, Turtle.init, Real.cos_zero, Real.sin_zero]
    exact ⟨_, rfl, rfl⟩
  · intro h
    have := List.head_eq_of_cons_eq h
    simp [Prod.ext_iff] at this

/-- C2 (amended): a pop on an empty stack makes the interpretation
pass fail at once (the rest of the sequence is not interpreted, n is
not incremented, the error is surfaced), but the partial geometry
accumulated before the failure stays in the buffer and is returned by
get_vectors. -/
theorem pop_empty_error_partial_geometry :
    (∀ (a : ℝ) (t : Turtle) (rest : List Char), t.states = [] →
        interpAll a t (']' :: rest) = .error t) ∧
    (∀ (ls : LSystem) (tbl : List (Char × List Char)) (t' : Turtle),
        ls.rules = some tbl →
        interpAll ls.angle ls.turtle.clearVectors (rewriteStep tbl ls.state) =
          .error t' →
        stepOnce ls = .error { ls with state := rewriteStep tbl ls.state,
                                       turtle := t' } ∧
        (exceptState (stepOnce ls)).n = ls.n ∧
        getVectors (exceptState (stepOnce ls)) = t'.vectors) := by
  constructor
  · intro a t rest h
    simp [interpAll, applySym, Turtle.pop, h]
  · intro ls tbl t' hr hi
    have h1 : stepOnce ls = .error { ls with state := rewriteStep tbl ls.state,
                                             turtle := t' } := by
      rw [stepOnce, hr]
      simp [hi]
    exact ⟨h1, by simp [h1, exceptState], by simp [h1, exceptState, getVectors,
      Turtle.getVectors]⟩

/-- Witness for C2: a system whose first interpreted symbol pops the
empty stack. -/
theorem pop_empty_error_partial_geometry_witness :
    interpAll 90 Turtle.init [']'] = .error Turtle.init ∧
    stepOnce demoPop = .error { demoPop with
                                  state := rewriteStep [] demoPop.state,
                                  turtle := demoPop.turtle.clearVectors } ∧
    (exceptState (stepOnce demoPop)).n = demoPop.n ∧
    getVectors (exceptState (stepOnce demoPop)) =
      demoPop.turtle.clearVectors.vectors :=
  ⟨pop_empty_error_partial_geometry.1 90 Turtle.init [] rfl,
   (pop_empty_error_partial_geometry.2 demoPop [] _ rfl rfl).1,
   (pop_empty_error_partial_geometry.2 demoPop [] _ rfl rfl).2.1,
   (pop_empty_error_partial_geometry.2 demoPop [] _ rfl rfl).2.2⟩

/-- C2 counterexample: after the failing pass of the system F], the
segment drawn before the pop error is still observable through
get_vectors, so the partial geometry is not discarded. -/
theorem partial_geometry_observable :
    (errPart (demoFpop.step 1)).map getVectors =
      some [((0 : ℝ), (0 : ℝ)), (1, 0)] ∧
    some [((0 : ℝ), (0 : ℝ)), (1, 0)] ≠ some ([] : List (ℝ × ℝ)) := by
  constructor
  · simp [demoFpop, mk', step, stepOnce, rewriteStep, ruleLookup, interpAll,
      applySym, Turtle.move, Turtle.pop, Turtle.clearVectors, Turtle.init,
      errPart, getVectors, Turtle.getVectors, Real.cos_zero, Real.sin_zero]
  · simp

/-- C4 (amended): for a non-empty buffer with bounds (xmin, ymin, xmax,
ymax), write_png succeeds with surface size ((xmax - xmin) * 5 + 20,
(ymax - ymin) * 5 + 20) (at least 20 in each direction, hence at least
1), the unrounded transform sends the minimum corner to (10, 10), and
each endpoint coordinate is rounded to an integer BEFORE the scale and
offset are applied: pixel = round(coord) * 5 + offset. -/
theorem rasterizer_mapping (ls : LSystem) (xmin ymin xmax ymax : ℝ)
    (hb : boundsOf ls.getVectors = some (xmin, ymin, xmax, ymax)) :
    ∃ c : Canvas, writePng ls = .ok c ∧
      c.width = (xmax - xmin) * 5 + 20 ∧
      c.height = (ymax - ymin) * 5 + 20 ∧
      (1 : ℝ) ≤ c.width ∧ (1 : ℝ) ≤ c.height ∧
      xmin * 5 + (-xmin * 5 + 10) = (10 : ℝ) ∧
      ymin * 5 + (-ymin * 5 + 10) = (10 : ℝ) ∧
      c.cmds.map (fun d => d.p1) = (segsOf ls.getVectors).map (fun s =>
        ((pyRound s.1.1 : ℝ) * 5 + (-xmin * 5 + 10),
         (pyRound s.1.2 : ℝ) * 5 + (-ymin * 5 + 10))) ∧
      c.cmds.map (fun d => d.p2) = (segsOf ls.getVectors).map (fun s =>
        ((pyRound s.2.1 : ℝ) * 5 + (-xmin * 5 + 10),
         (pyRound s.2.2 : ℝ) * 5 + (-ymin * 5 + 10))) := by
  obtain ⟨hx, hy⟩ := boundsOf_le _ _ _ _ _ hb
  refine ⟨{ width := (xmax - xmin) * 5 + 10 * 2,
            height := (ymax - ymin) * 5 + 10 * 2,
            cmds := drawCmds 5 5 (-xmin * 5 + 10) (-ymin * 5 + 10) ls.thickness
                      ls.getVectors.length 0 ls.getVectors },
      ?_, by norm_num, by norm_num,
      by show (1 : ℝ) ≤ (xmax - xmin) * 5 + 10 * 2; nlinarith,
      by show (1 : ℝ) ≤ (ymax - ymin) * 5 + 10 * 2; nlinarith,
      by ring, by ring, ?_, ?_⟩
  · rw [writePng, hb]
  · exact drawCmds_map_p1 5 5 (-xmin * 5 + 10) (-ymin * 5 + 10) ls.thickness
      ls.getVectors.length ls.getVectors 0
  · exact drawCmds_map_p2 5 5 (-xmin * 5 + 10) (-ymin * 5 + 10) ls.thickness
      ls.getVectors.length ls.getVectors 0

/-- Witness for C4: the mapping evaluated on a buffer holding one
degenerate segment at the origin. -/
theorem rasterizer_mapping_witness :
    ∃ c : Canvas, writePng demoSeg = .ok c ∧
      c.width = ((0 : ℝ) - 0) * 5 + 20 ∧
      c.height = ((0 : ℝ) - 0) * 5 + 20 ∧
      (1 : ℝ) ≤ c.width ∧ (1 : ℝ) ≤ c.height ∧
      (0 : ℝ) * 5 + (-(0 : ℝ) * 5 + 10) = (10 : ℝ) ∧
      (0 : ℝ) * 5 + (-(0 : ℝ) * 5 + 10) = (10 : ℝ) ∧
      c.cmds.map (fun d => d.p1) = (segsOf demoSeg.getVectors).map (fun s =>
        ((pyRound s.1.1 : ℝ) * 5 + (-(0 : ℝ) * 5 + 10),
         (pyRound s.1.2 : ℝ) * 5 + (-(0 : ℝ) * 5 + 10))) ∧
      c.cmds.map (fun d => d.p2) = (segsOf demoSeg.getVectors).map (fun s =>
        ((pyRound s.2.1 : ℝ) * 5 + (-(0 : ℝ) * 5 + 10),
         (pyRound s.2.2 : ℝ) * 5 + (-(0 : ℝ) * 5 + 10))) :=
  rasterizer_mapping demoSeg 0 0 0 0 (by
    simp [demoSeg, getVectors, Turtle.getVectors, boundsOf])

/-- C4 counterexample: on the buffer [(0,0), (1/2,0)] the code maps the
endpoint x = 1/2 to round(1/2) * 5 + 10 = 15, while rounding after
scale and offset as the claim states would give round(1/2 * 5 + 10) =
round(12.5) = 13. -/
theorem round_before_scale_refuted :
    ((writePng demoHalf).toOption.map fun c => c.cmds.map fun d => d.p2.1) =
      some [(15 : ℝ)] ∧
    specRoundAfter (1 / 2) 5 10 = 13 ∧
    (15 : ℝ) ≠ 13 := by
  refine ⟨?_, ?_, by norm_num⟩
  · simp [writePng, demoHalf, getVectors, Turtle.getVectors, boundsOf, drawCmds,
      pyRound_half, min_def, max_def]
    exact ⟨_, rfl, by norm_num [pyRound_half]⟩
  · have h : (1 / 2 : ℝ) * 5 + 10 = 25 / 2 := by norm_num
    rw [specRoundAfter, h, pyRound_25_half]
    norm_num

/-- C5: in the rendering loop, the j-th segment in draw order out of N
segments (the buffer stores 2N points) is drawn with color
hsla = ((j / N) * 360, 50, 50, 100): saturation 50, lightness 50, full
opacity. -/
theorem segment_hue_ramp (ls : LSystem) (c : Canvas) (N j : ℕ)
    (h1 : writePng ls = .ok c) (h2 : ls.getVectors.length = 2 * N)
    (h3 : j < c.cmds.length) :
    (c.cmds.get ⟨j, h3⟩).color = ((j : ℝ) / (N : ℝ) * 360, 50, 50, 100) := by
  rcases hb : boundsOf ls.getVectors with _ | ⟨xmin, ymin, xmax, ymax⟩
  · rw [writePng, hb] at h1
    cases h1
  · rw [writePng, hb] at h1
    cases h1
    have h4 : j < (drawCmds 5 5 (-xmin * 5 + 10) (-ymin * 5 + 10) ls.thickness
        ls.getVectors.length 0 ls.getVectors).length := h3
    rw [drawCmds_get_color 5 5 (-xmin * 5 + 10) (-ymin * 5 + 10) ls.thickness
      ls.getVectors.length ls.getVectors 0 j h4]
    rw [h2]
    have hnum : ((0 + 2 * j : ℕ) : ℝ) = 2 * (j : ℝ) := by push_cast; ring
    have hden : ((2 * N : ℕ) : ℝ) = 2 * (N : ℝ) := by push_cast; ring
    rw [hnum, hden, mul_div_mul_left _ _ (two_ne_zero)]

/-- Witness for C5: the single segment of demoSeg gets hue 0/1 * 360
at saturation 50, lightness 50, alpha 100. -/
theorem segment_hue_ramp_witness :
    writePng demoSeg = .ok cDemo ∧
    demoSeg.getVectors.length = 2 * 1 ∧
    (cDemo.cmds.get ⟨0, by simp [cDemo]⟩).color =
      (((0 : ℕ) : ℝ) / ((1 : ℕ) : ℝ) * 360, 50, 50, 100) := by
  have hA : writePng demoSeg = .ok cDemo := by
    simp [writePng, demoSeg, cDemo, getVectors, Turtle.getVectors, boundsOf,
      drawCmds, pyRound_zero]
    norm_num
  have hB : demoSeg.getVectors.length = 2 * 1 := by
    simp [demoSeg, getVectors, Turtle.getVectors]
  exact ⟨hA, hB, segment_hue_ramp demoSeg cDemo 1 0 hA hB (by simp [cDemo])⟩

end LSystem
